import Mathlib

/-!
Shallow embedding of the masked-token construction procedure of
`training/train_maskgit_imagenet.py` (the `train_step` / `eval_step`
functions), together with theorems about its behaviour.

Modelling conventions:
* Tensors of token ids become `List ℕ` (rows) and `List (List ℕ)` (batches);
  labels, which contain the sentinel `-100`, become `List ℤ`.
* Floating point values (timesteps, masking probabilities, the uniform draws
  feeding `torch.rand`) become exact rationals `ℚ`; `torch.round` is
  round-half-to-even, modelled exactly by `roundHalfEven`.
* The random draws are explicit inputs: the per-image timesteps and the
  per-image/per-position uniform values that `torch.rand` would produce.
* `cosine_schedule` is an external library function (imported from
  `muse.sampling`); it is kept abstract as a function argument `schedule`.
-/

/-- `torch.round` semantics on exact rationals: round to the nearest
integer, ties going to the even integer. -/
def roundHalfEven (q : ℚ) : ℤ :=
  if q - ⌊q⌋ < 1/2 then ⌊q⌋
  else if 1/2 < q - ⌊q⌋ then ⌊q⌋ + 1
  else if ⌊q⌋ % 2 = 0 then ⌊q⌋ else ⌊q⌋ + 1

/-- `mask_prob.clip(config.training.min_masking_rate)`: one-sided clip,
i.e. a lower clamp. -/
def clip (x lo : ℚ) : ℚ := max x lo

/-- `num_token_masked = (seq_len * mask_prob).round().clamp(min=1)`. -/
def numTokenMasked (seqLen : ℕ) (maskProb : ℚ) : ℤ :=
  max (roundHalfEven ((seqLen : ℚ) * maskProb)) 1

/-- `torch.argsort` on one row of uniform draws: the list of indices
`0..n-1` ordered by the value they point to (position `j` of the result
holds the index of the `j`-th smallest draw). -/
def argsort (xs : List ℚ) : List ℕ :=
  (List.range xs.length).insertionSort (fun i j => xs.getD i 0 ≤ xs.getD j 0)

/-- `mask = batch_randperm < num_token_masked`, one row. -/
def rowMask (rand : List ℚ) (k : ℤ) : List Bool :=
  (argsort rand).map (fun r : ℕ => decide ((r : ℤ) < k))

/-- One image of `train_step`'s mask construction: given the image's
tokens, class id, sampled timestep and row of uniform draws, produce
(input_ids row, labels row, mask_prob).  Mirrors lines 322-341 of the
source. -/
def trainStepRow (V maskId : ℕ) (minRate : ℚ) (schedule : ℚ → ℚ)
    (seqLen : ℕ) (tokens : List ℕ) (classId : ℕ) (t : ℚ) (rand : List ℚ) :
    List ℕ × List ℤ × ℚ :=
  let maskProb := clip (schedule t) minRate
  let k := numTokenMasked seqLen maskProb
  let mask := rowMask rand k
  let inputIds :=
    (classId + V) :: List.zipWith (fun m tok => if m then maskId else tok) mask tokens
  let labels :=
    (-100 : ℤ) :: List.zipWith (fun m tok => if m then (tok : ℤ) else -100) mask tokens
  (inputIds, labels, maskProb)

/-- Output of the mask construction on a whole batch. -/
structure MaskStepOutput where
  inputIds : List (List ℕ)
  labels : List (List ℤ)
  maskProb : List ℚ
  deriving DecidableEq, Repr

/-- The batched mask construction of `train_step` (lines 315-341):
`seq_len` is read off the token matrix's shape, then every image is
processed independently (the torch code is vectorised over the batch
dimension; here each row is computed by `trainStepRow`). -/
def trainStepMask (V maskId : ℕ) (minRate : ℚ) (schedule : ℚ → ℚ)
    (tokens : List (List ℕ)) (classIds : List ℕ)
    (timesteps : List ℚ) (rands : List (List ℚ)) : MaskStepOutput :=
  let batchSize := tokens.length
  let seqLen := (tokens.headD []).length
  { inputIds := (List.range batchSize).map (fun i =>
      (trainStepRow V maskId minRate schedule seqLen (tokens.getD i [])
        (classIds.getD i 0) (timesteps.getD i 0) (rands.getD i [])).1)
    labels := (List.range batchSize).map (fun i =>
      (trainStepRow V maskId minRate schedule seqLen (tokens.getD i [])
        (classIds.getD i 0) (timesteps.getD i 0) (rands.getD i [])).2.1)
    maskProb := (List.range batchSize).map (fun i =>
      (trainStepRow V maskId minRate schedule seqLen (tokens.getD i [])
        (classIds.getD i 0) (timesteps.getD i 0) (rands.getD i [])).2.2) }

/-- Mean of a list of rationals (`Tensor.mean` on a 1-D tensor). -/
def listMean (xs : List ℚ) : ℚ := xs.sum / xs.length

/-- Full value-level `train_step` (lines 311-353): mask construction, the
model forward pass (abstracted as the function `model` from inputs and
labels to the scalar loss), and the logging aggregates.  On a single
process `accelerator.gather` is the identity, so
`avg_loss = loss.repeat(batch_size).mean()` and
`avg_masking_rate = mask_prob.repeat(batch_size).mean()`.
`logFirstBatch` only controls logging, a side effect with no value-level
footprint. -/
def trainStepFull (model : List (List ℕ) → List (List ℤ) → ℚ)
    (batchSize V maskId : ℕ) (minRate : ℚ) (schedule : ℚ → ℚ)
    (tokens : List (List ℕ)) (classIds : List ℕ)
    (timesteps : List ℚ) (rands : List (List ℚ))
    (_logFirstBatch : Bool) : ℚ × ℚ × ℚ :=
  let out := trainStepMask V maskId minRate schedule tokens classIds timesteps rands
  let loss := model out.inputIds out.labels
  let avgLoss := listMean ((List.replicate batchSize [loss]).flatten)
  let avgMaskingRate := listMean ((List.replicate batchSize out.maskProb).flatten)
  (loss, avgLoss, avgMaskingRate)

/-- `eval_step` (lines 355-358): call `train_step` with `log_first_batch`
left at its default `False` and return the middle (`avg_loss`) component. -/
def evalStep (model : List (List ℕ) → List (List ℤ) → ℚ)
    (batchSize V maskId : ℕ) (minRate : ℚ) (schedule : ℚ → ℚ)
    (tokens : List (List ℕ)) (classIds : List ℕ)
    (timesteps : List ℚ) (rands : List (List ℚ)) : ℚ :=
  (trainStepFull model batchSize V maskId minRate schedule tokens classIds
    timesteps rands false).2.1

example : argsort [(1:ℚ), 3] = [0, 1] := by decide
example : argsort [(3:ℚ), 1] = [1, 0] := by decide
example : roundHalfEven (5/2) = 2 := by norm_num [roundHalfEven]
example : roundHalfEven (7/2) = 4 := by norm_num [roundHalfEven]
example : rowMask [(1:ℚ), 3] 1 = [true, false] := by decide

/-! ### Permutation and counting lemmas for the mask -/

/-- The argsort of a row of draws is a permutation of `0..n-1`
(`batch_randperm` really is a batch of random permutations). -/
theorem argsort_perm (xs : List ℚ) :
    List.Perm (argsort xs) (List.range xs.length) :=
  List.perm_insertionSort _ _

theorem argsort_length (xs : List ℚ) : (argsort xs).length = xs.length := by
  simpa using (argsort_perm xs).length_eq

theorem rowMask_length (rand : List ℚ) (k : ℤ) :
    (rowMask rand k).length = rand.length := by
  simp [rowMask, argsort_length]

/-- Counting how many of `0..n-1` are below an integer threshold. -/
theorem countP_range_lt (k : ℤ) (n : ℕ) :
    ((List.range n).countP fun r : ℕ => decide ((r : ℤ) < k)) = min k.toNat n := by
  induction n with
  | zero => simp
  | succ n ih =>
      rw [List.range_succ, List.countP_append, ih]
      by_cases hn : (n : ℤ) < k
      · simp [List.countP_cons, hn]
        omega
      · simp [List.countP_cons, hn]
        omega

/-- Exactly `min k L` of the `L` mask entries are true (for `0 ≤ k`):
the upper bound `L` emerges because the compared values form a
permutation of `0..L-1`. -/
theorem rowMask_countP (rand : List ℚ) (k : ℤ) :
    (rowMask rand k).countP id = min k.toNat rand.length := by
  rw [rowMask, List.countP_map, (argsort_perm rand).countP_eq]
  simpa using countP_range_lt k rand.length

/-- Counting mask-token occurrences in `torch.where(mask, mask_id, tokens)`
when no original token equals the mask id. -/
theorem count_where_eq_countP (maskId : ℕ) (mask : List Bool) (tokens : List ℕ)
    (hne : ∀ t ∈ tokens, t ≠ maskId) :
    (List.zipWith (fun m tok => if m then maskId else tok) mask tokens).count maskId
      = (mask.take tokens.length).countP id := by
  induction mask generalizing tokens with
  | nil => simp
  | cons m ms ih =>
      cases tokens with
      | nil => simp
      | cons t ts =>
          have hmem : t ∈ t :: ts := List.mem_cons_self t ts
          have hne₁ : t ≠ maskId := hne t hmem
          have hne₂ : ∀ u ∈ ts, u ≠ maskId := fun u hu => hne u (List.mem_cons_of_mem t hu)
          cases m with
          | true =>
              simp [List.count_cons, List.countP_cons, ih ts hne₂]
          | false =>
              simp [List.count_cons, List.countP_cons, ih ts hne₂, hne₁]

/-! ### Indexing the batched construction -/

theorem headD_length (tokens : List (List ℕ)) (L : ℕ)
    (h : ∀ row ∈ tokens, row.length = L) (hne : tokens ≠ []) :
    (tokens.headD []).length = L := by
  cases tokens with
  | nil => exact absurd rfl hne
  | cons a l => exact h a (List.mem_cons_self a l)

theorem trainStepMask_inputIds_getD (V maskId : ℕ) (minRate : ℚ) (schedule : ℚ → ℚ)
    (tokens : List (List ℕ)) (classIds : List ℕ) (ts : List ℚ) (rands : List (List ℚ))
    (i : ℕ) (hi : i < tokens.length) :
    (trainStepMask V maskId minRate schedule tokens classIds ts rands).inputIds.getD i []
      = (trainStepRow V maskId minRate schedule (tokens.headD []).length
          (tokens.getD i []) (classIds.getD i 0) (ts.getD i 0) (rands.getD i [])).1 := by
  have hlen : i < ((List.range tokens.length).map (fun i =>
      (trainStepRow V maskId minRate schedule (tokens.headD []).length (tokens.getD i [])
        (classIds.getD i 0) (ts.getD i 0) (rands.getD i [])).1)).length := by
    simpa using hi
  rw [trainStepMask]
  rw [List.getD_eq_getElem _ _ hlen, List.getElem_map, List.getElem_range _]

theorem trainStepMask_labels_getD (V maskId : ℕ) (minRate : ℚ) (schedule : ℚ → ℚ)
    (tokens : List (List ℕ)) (classIds : List ℕ) (ts : List ℚ) (rands : List (List ℚ))
    (i : ℕ) (hi : i < tokens.length) :
    (trainStepMask V maskId minRate schedule tokens classIds ts rands).labels.getD i []
      = (trainStepRow V maskId minRate schedule (tokens.headD []).length
          (tokens.getD i []) (classIds.getD i 0) (ts.getD i 0) (rands.getD i [])).2.1 := by
  have hlen : i < ((List.range tokens.length).map (fun i =>
      (trainStepRow V maskId minRate schedule (tokens.headD []).length (tokens.getD i [])
        (classIds.getD i 0) (ts.getD i 0) (rands.getD i [])).2.1)).length := by
    simpa using hi
  rw [trainStepMask]
  rw [List.getD_eq_getElem _ _ hlen, List.getElem_map, List.getElem_range _]

theorem trainStepMask_maskProb_getD (V maskId : ℕ) (minRate : ℚ) (schedule : ℚ → ℚ)
    (tokens : List (List ℕ)) (classIds : List ℕ) (ts : List ℚ) (rands : List (List ℚ))
    (i : ℕ) (hi : i < tokens.length) :
    (trainStepMask V maskId minRate schedule tokens classIds ts rands).maskProb.getD i 0
      = clip (schedule (ts.getD i 0)) minRate := by
  have hlen : i < ((List.range tokens.length).map (fun i =>
      (trainStepRow V maskId minRate schedule (tokens.headD []).length (tokens.getD i [])
        (classIds.getD i 0) (ts.getD i 0) (rands.getD i [])).2.2)).length := by
    simpa using hi
  rw [trainStepMask]
  rw [List.getD_eq_getElem _ _ hlen, List.getElem_map, List.getElem_range _]
  rfl

theorem trainStepRow_inputIds (V maskId : ℕ) (minRate : ℚ) (schedule : ℚ → ℚ)
    (seqLen : ℕ) (tokens : List ℕ) (classId : ℕ) (t : ℚ) (rand : List ℚ) :
    (trainStepRow V maskId minRate schedule seqLen tokens classId t rand).1
      = (classId + V) :: List.zipWith (fun m tok => if m then maskId else tok)
          (rowMask rand (numTokenMasked seqLen (clip (schedule t) minRate))) tokens := rfl

theorem trainStepRow_labels (V maskId : ℕ) (minRate : ℚ) (schedule : ℚ → ℚ)
    (seqLen : ℕ) (tokens : List ℕ) (classId : ℕ) (t : ℚ) (rand : List ℚ) :
    (trainStepRow V maskId minRate schedule seqLen tokens classId t rand).2.1
      = (-100 : ℤ) :: List.zipWith (fun m tok => if m then (tok : ℤ) else -100)
          (rowMask rand (numTokenMasked seqLen (clip (schedule t) minRate))) tokens := rfl

/-- Reading one position of `torch.where(mask, a, tokens)`-shaped zips. -/
theorem getD_zipWith {α β γ : Type} (g : α → β → γ) (as : List α) (bs : List β)
    (j : ℕ) (ha : j < as.length) (hb : j < bs.length) (da : α) (db : β) (dc : γ) :
    (List.zipWith g as bs).getD j dc = g (as.getD j da) (bs.getD j db) := by
  have hz : j < (List.zipWith g as bs).length := by
    rw [List.length_zipWith]; omega
  rw [List.getD_eq_getElem _ _ hz, List.getD_eq_getElem _ _ ha,
    List.getD_eq_getElem _ _ hb, List.getElem_zipWith]

/-! ### C1 -/

/-- C1: for a batch of shape (N, L) with L ≥ 1, for every image i the
number of positions j in 1..L where `input_ids[i, j]` equals the mask
token id is exactly `clamp(round(L * mask_prob_i), 1, L)`, where
`mask_prob_i` is the clipped per-image masking probability.  The code
only clamps from below (`clamp(min=1)`); the upper bound `L` emerges
because the mask compares a permutation of `0..L-1` against the count. -/
theorem masked_count_eq_clamp
    (V maskId N L i : ℕ) (minRate : ℚ) (schedule : ℚ → ℚ)
    (tokens : List (List ℕ)) (classIds : List ℕ) (ts : List ℚ) (rands : List (List ℚ))
    (hN : tokens.length = N) (hNr : rands.length = N)
    (hrows : ∀ row ∈ tokens, row.length = L)
    (hrrows : ∀ row ∈ rands, row.length = L)
    (hL1 : 1 ≤ L) (hi : i < N)
    (hne : ∀ t ∈ tokens.getD i [], t ≠ maskId) :
    ((((trainStepMask V maskId minRate schedule tokens classIds ts
          rands).inputIds.getD i []).tail.count maskId : ℕ) : ℤ)
      = min (max (roundHalfEven ((L : ℚ) * clip (schedule (ts.getD i 0)) minRate)) 1)
          (L : ℤ) := by
  have hi' : i < tokens.length := by omega
  have hir : i < rands.length := by omega
  have htoklen : (tokens.getD i []).length = L :=
    hrows _ (by rw [List.getD_eq_getElem _ _ hi']; exact List.getElem_mem hi')
  have hrandlen : (rands.getD i []).length = L :=
    hrrows _ (by rw [List.getD_eq_getElem _ _ hir]; exact List.getElem_mem hir)
  have hne' : tokens ≠ [] := by
    intro h
    rw [h] at hN
    simp at hN
    omega
  have hhead : (tokens.headD []).length = L := headD_length tokens L hrows hne'
  rw [trainStepMask_inputIds_getD V maskId minRate schedule tokens classIds ts rands i hi',
    hhead, trainStepRow_inputIds, List.tail_cons]
  rw [count_where_eq_countP maskId _ _ hne, htoklen]
  have hmlen :
      (rowMask (rands.getD i [])
        (numTokenMasked L (clip (schedule (ts.getD i 0)) minRate))).length = L := by
    rw [rowMask_length, hrandlen]
  rw [List.take_of_length_le (le_of_eq hmlen), rowMask_countP, hrandlen]
  rw [numTokenMasked]
  have hk : (0 : ℤ) ≤ max (roundHalfEven ((L : ℚ) * clip (schedule (ts.getD i 0)) minRate)) 1 :=
    le_trans Int.one_nonneg (le_max_right _ _)
  push_cast
  omega

/-! ### C2 -/

/-- C2: for every batch, image i and token position j in 1..L: if position
j is masked then `input_ids[i, j]` is the mask token id and
`labels[i, j]` is the original token `tokens[i, j-1]`; if position j is
not masked then `input_ids[i, j]` is the original token and
`labels[i, j]` is the ignore label -100 (under the precondition that
every original token lies in [0, V) and the mask token id does not). -/
theorem masked_position_values
    (V maskId N L i j : ℕ) (minRate : ℚ) (schedule : ℚ → ℚ)
    (tokens : List (List ℕ)) (classIds : List ℕ) (ts : List ℚ) (rands : List (List ℚ))
    (hN : tokens.length = N) (hNr : rands.length = N)
    (hrows : ∀ row ∈ tokens, row.length = L)
    (hrrows : ∀ row ∈ rands, row.length = L)
    (hi : i < N) (hj1 : 1 ≤ j) (hjL : j ≤ L)
    (htokV : ∀ t ∈ tokens.getD i [], t < V)
    (hmaskV : ¬ maskId < V) :
    ((rowMask (rands.getD i [])
        (numTokenMasked L (clip (schedule (ts.getD i 0)) minRate))).getD (j-1) false = true →
      ((trainStepMask V maskId minRate schedule tokens classIds ts
          rands).inputIds.getD i []).getD j 0 = maskId ∧
      ((trainStepMask V maskId minRate schedule tokens classIds ts
          rands).labels.getD i []).getD j 0 = ((tokens.getD i []).getD (j-1) 0 : ℤ)) ∧
    ((rowMask (rands.getD i [])
        (numTokenMasked L (clip (schedule (ts.getD i 0)) minRate))).getD (j-1) false = false →
      ((trainStepMask V maskId minRate schedule tokens classIds ts
          rands).inputIds.getD i []).getD j 0 = (tokens.getD i []).getD (j-1) 0 ∧
      ((trainStepMask V maskId minRate schedule tokens classIds ts
          rands).labels.getD i []).getD j 0 = -100) := by
  have hi' : i < tokens.length := by omega
  have hir : i < rands.length := by omega
  have htoklen : (tokens.getD i []).length = L :=
    hrows _ (by rw [List.getD_eq_getElem _ _ hi']; exact List.getElem_mem hi')
  have hrandlen : (rands.getD i []).length = L :=
    hrrows _ (by rw [List.getD_eq_getElem _ _ hir]; exact List.getElem_mem hir)
  have hne' : tokens ≠ [] := by
    intro h
    rw [h] at hN
    simp at hN
    omega
  have hhead : (tokens.headD []).length = L := headD_length tokens L hrows hne'
  have hmlen :
      (rowMask (rands.getD i [])
        (numTokenMasked L (clip (schedule (ts.getD i 0)) minRate))).length = L := by
    rw [rowMask_length, hrandlen]
  obtain ⟨j', rfl⟩ : ∃ j'', j = j'' + 1 := ⟨j - 1, by omega⟩
  simp only [Nat.add_sub_cancel]
  have hja : j' < (rowMask (rands.getD i [])
      (numTokenMasked L (clip (schedule (ts.getD i 0)) minRate))).length := by omega
  have hjb : j' < (tokens.getD i []).length := by omega
  rw [trainStepMask_inputIds_getD V maskId minRate schedule tokens classIds ts rands i hi',
    trainStepMask_labels_getD V maskId minRate schedule tokens classIds ts rands i hi',
    hhead, trainStepRow_inputIds, trainStepRow_labels,
    List.getD_cons_succ, List.getD_cons_succ,
    getD_zipWith _ _ _ j' hja hjb false 0 0,
    getD_zipWith _ _ _ j' hja hjb false 0 (0 : ℤ)]
  constructor
  · intro hm
    rw [hm]
    simp
  · intro hm
    rw [hm]
    simp

/-! ### C3 -/

/-- C3: the produced `input_ids` and `labels` both have shape (N, L+1);
for every image i, `input_ids[i, 0]` equals `class_ids[i] + V` (the class
id shifted by the tokenizer vocabulary size) and `labels[i, 0]` equals
the ignore label -100. -/
theorem output_shapes_and_class_slot
    (V maskId N L : ℕ) (minRate : ℚ) (schedule : ℚ → ℚ)
    (tokens : List (List ℕ)) (classIds : List ℕ) (ts : List ℚ) (rands : List (List ℚ))
    (hN : tokens.length = N) (hNr : rands.length = N)
    (hrows : ∀ row ∈ tokens, row.length = L)
    (hrrows : ∀ row ∈ rands, row.length = L) :
    (trainStepMask V maskId minRate schedule tokens classIds ts rands).inputIds.length = N ∧
    (trainStepMask V maskId minRate schedule tokens classIds ts rands).labels.length = N ∧
    ∀ i, i < N →
      ((trainStepMask V maskId minRate schedule tokens classIds ts
          rands).inputIds.getD i []).length = L + 1 ∧
      ((trainStepMask V maskId minRate schedule tokens classIds ts
          rands).labels.getD i []).length = L + 1 ∧
      ((trainStepMask V maskId minRate schedule tokens classIds ts
          rands).inputIds.getD i []).getD 0 0 = classIds.getD i 0 + V ∧
      ((trainStepMask V maskId minRate schedule tokens classIds ts
          rands).labels.getD i []).getD 0 0 = -100 := by
  refine ⟨by simp [trainStepMask, hN], by simp [trainStepMask, hN], ?_⟩
  intro i hi
  have hi' : i < tokens.length := by omega
  have hir : i < rands.length := by omega
  have htoklen : (tokens.getD i []).length = L :=
    hrows _ (by rw [List.getD_eq_getElem _ _ hi']; exact List.getElem_mem hi')
  have hrandlen : (rands.getD i []).length = L :=
    hrrows _ (by rw [List.getD_eq_getElem _ _ hir]; exact List.getElem_mem hir)
  have hne' : tokens ≠ [] := by
    intro h
    rw [h] at hN
    simp at hN
    omega
  have hhead : (tokens.headD []).length = L := headD_length tokens L hrows hne'
  rw [trainStepMask_inputIds_getD V maskId minRate schedule tokens classIds ts rands i hi',
    trainStepMask_labels_getD V maskId minRate schedule tokens classIds ts rands i hi',
    hhead, trainStepRow_inputIds, trainStepRow_labels]
  refine ⟨?_, ?_, rfl, rfl⟩
  · rw [List.length_cons, List.length_zipWith, rowMask_length, hrandlen, htoklen, min_self]
  · rw [List.length_cons, List.length_zipWith, rowMask_length, hrandlen, htoklen, min_self]

/-! ### C4 -/

/-- C4: for a fixed schedule output s, the clipped masking probability
`clip(s, min_masking_rate)` is non-decreasing as a function of
min_masking_rate, and for min_masking_rate in [0, 1) the result is at
least min_masking_rate. -/
theorem clip_monotone_and_floor (s m₁ m₂ m : ℚ)
    (h12 : m₁ ≤ m₂) (h0 : 0 ≤ m) (h1 : m < 1) :
    clip s m₁ ≤ clip s m₂ ∧ m ≤ clip s m :=
  ⟨max_le_max le_rfl h12, le_max_right s m⟩

theorem clip_monotone_and_floor_witness :
    ((0 : ℚ) ≤ 1/2) ∧ ((0 : ℚ) ≤ 1/2) ∧ ((1 : ℚ)/2 < 1) ∧
    (clip 1 0 ≤ clip 1 (1/2) ∧ (1 : ℚ)/2 ≤ clip 1 (1/2)) :=
  ⟨by norm_num, by norm_num, by norm_num,
    clip_monotone_and_floor 1 0 (1/2) (1/2) (by norm_num) (by norm_num) (by norm_num)⟩

/-! ### C5 -/

/-- C5: two invocations of the mask construction on identical inputs
(tokens, class ids, vocabulary size, mask token id, min_masking_rate)
and identical random draws (timesteps and per-position uniform values)
produce identical outputs (input_ids, labels, mask_prob). -/
theorem mask_construction_deterministic
    (V₁ V₂ maskId₁ maskId₂ : ℕ) (minRate₁ minRate₂ : ℚ) (schedule₁ schedule₂ : ℚ → ℚ)
    (tokens₁ tokens₂ : List (List ℕ)) (classIds₁ classIds₂ : List ℕ)
    (ts₁ ts₂ : List ℚ) (rands₁ rands₂ : List (List ℚ))
    (hV : V₁ = V₂) (hm : maskId₁ = maskId₂) (hr : minRate₁ = minRate₂)
    (hs : schedule₁ = schedule₂) (ht : tokens₁ = tokens₂) (hc : classIds₁ = classIds₂)
    (hts : ts₁ = ts₂) (hrand : rands₁ = rands₂) :
    trainStepMask V₁ maskId₁ minRate₁ schedule₁ tokens₁ classIds₁ ts₁ rands₁
      = trainStepMask V₂ maskId₂ minRate₂ schedule₂ tokens₂ classIds₂ ts₂ rands₂ := by
  subst hV hm hr hs ht hc hts hrand
  rfl

theorem mask_construction_deterministic_witness :
    ([[7, 8]] : List (List ℕ)) = [[7, 8]] ∧
    trainStepMask 10 200 0 (fun _ => 0) [[7, 8]] [3] [0] [[1, 2]]
      = trainStepMask 10 200 0 (fun _ => 0) [[7, 8]] [3] [0] [[1, 2]] :=
  ⟨rfl, mask_construction_deterministic 10 10 200 200 0 0 (fun _ => 0) (fun _ => 0)
    [[7, 8]] [[7, 8]] [3] [3] [0] [0] [[1, 2]] [[1, 2]]
    rfl rfl rfl rfl rfl rfl rfl rfl⟩

/-! ### C10 -/

/-- C10 (implicit): `eval_step(batch)` returns exactly the avg_loss
component of `train_step(batch)` with log_first_batch defaulted to
False; the flag has no effect on the returned values, so evaluation
reuses the identical stochastic mask construction and loss computation
as training. -/
theorem eval_step_refines_train_step
    (model : List (List ℕ) → List (List ℤ) → ℚ) (batchSize V maskId : ℕ)
    (minRate : ℚ) (schedule : ℚ → ℚ) (tokens : List (List ℕ)) (classIds : List ℕ)
    (ts : List ℚ) (rands : List (List ℚ)) (b : Bool) :
    evalStep model batchSize V maskId minRate schedule tokens classIds ts rands
      = (trainStepFull model batchSize V maskId minRate schedule tokens classIds ts
          rands false).2.1
    ∧ trainStepFull model batchSize V maskId minRate schedule tokens classIds ts rands b
      = trainStepFull model batchSize V maskId minRate schedule tokens classIds ts
          rands false :=
  ⟨rfl, rfl⟩

/-! ### C6 -/

/-- C6: with sequence length L = 0 the code does NOT fail fast.  The mask
construction is total: it silently returns rows holding only the class
slot, with zero masked token positions, even though `num_token_masked`
was clamped up to 1 (the floor of one supervised position per image is
silently violated; no error is raised anywhere). -/
theorem seq_len_zero_silently_proceeds :
    trainStepMask 10 200 0 (fun _ => 1) [[]] [3] [0] [[]]
      = ⟨[[13]], [[-100]], [1]⟩ ∧
    ((trainStepMask 10 200 0 (fun _ => 1) [[]] [3] [0]
        [[]]).inputIds.getD 0 []).tail.count 200 = 0 ∧
    numTokenMasked 0 (clip 1 0) = 1 := by
  have h : trainStepMask 10 200 0 (fun _ => 1) [[]] [3] [0] [[]]
      = ⟨[[13]], [[-100]], [1]⟩ := by
    norm_num [trainStepMask, trainStepRow, rowMask, argsort, numTokenMasked, clip,
      roundHalfEven, max_def, List.range_succ, MaskStepOutput.mk.injEq]
  refine ⟨h, ?_, ?_⟩
  · rw [h]
    decide
  · norm_num [numTokenMasked, clip, roundHalfEven, max_def]

/-! ### C7 -/

/-- C7: no setup validation rejects a `mask_token_id` inside the
tokenizer vocabulary range [0, V).  The construction runs with the
colliding id, and the collision makes masked positions indistinguishable
from genuine occurrences of that token id: two runs over the same batch
with different draws produce identical input_ids yet different labels. -/
theorem mask_id_in_vocab_not_rejected :
    (5 < 10) ∧
    (trainStepMask 10 5 0 (fun _ => 0) [[5, 5]] [0] [0] [[1, 2]]).inputIds
      = (trainStepMask 10 5 0 (fun _ => 0) [[5, 5]] [0] [0] [[2, 1]]).inputIds ∧
    (trainStepMask 10 5 0 (fun _ => 0) [[5, 5]] [0] [0] [[1, 2]]).labels
      ≠ (trainStepMask 10 5 0 (fun _ => 0) [[5, 5]] [0] [0] [[2, 1]]).labels := by
  have h₁ : trainStepMask 10 5 0 (fun _ => 0) [[5, 5]] [0] [0] [[1, 2]]
      = ⟨[[10, 5, 5]], [[-100, 5, -100]], [0]⟩ := by
    norm_num [trainStepMask, trainStepRow, rowMask, argsort, numTokenMasked, clip,
      roundHalfEven, max_def, List.insertionSort, List.orderedInsert,
      List.range_succ, MaskStepOutput.mk.injEq]
  have h₂ : trainStepMask 10 5 0 (fun _ => 0) [[5, 5]] [0] [0] [[2, 1]]
      = ⟨[[10, 5, 5]], [[-100, -100, 5]], [0]⟩ := by
    norm_num [trainStepMask, trainStepRow, rowMask, argsort, numTokenMasked, clip,
      roundHalfEven, max_def, List.insertionSort, List.orderedInsert,
      List.range_succ, MaskStepOutput.mk.injEq]
  refine ⟨by norm_num, ?_, ?_⟩
  · rw [h₁, h₂]
  · rw [h₁, h₂]
    decide

/-! ### C8 -/

/-- Positions whose label differs from the ignore value -100, read back
from the produced label matrix with the class slot dropped: since
original tokens are non-negative, this recovers exactly the boolean mask
the code computed. -/
def recoveredMask (labels : List (List ℤ)) : List (List Bool) :=
  labels.map (fun row => row.tail.map (fun v : ℤ => decide (v ≠ -100)))

theorem recover_zipWith (mask : List Bool) (tokens : List ℕ) :
    (List.zipWith (fun m tok => if m then (tok : ℤ) else -100) mask tokens).map
        (fun v : ℤ => decide (v ≠ -100))
      = mask.take tokens.length := by
  induction mask generalizing tokens with
  | nil => simp
  | cons m ms ih =>
      cases tokens with
      | nil => simp
      | cons t ts =>
          have hd : decide ((if m = true then (t : ℤ) else -100) ≠ -100) = m := by
            cases m with
            | true =>
                simp only [if_true, decide_eq_true_eq]
                omega
            | false => simp
          rw [List.zipWith_cons_cons, List.map_cons, ih ts, List.length_cons,
            List.take_succ_cons, hd]

/-- C8 (implicit): the set of masked positions depends only on the batch
shape and the random draws, not on the token values or class ids: two
runs with the same shape (N, L), the same timesteps and the same
per-position uniform draws, but different token contents and class ids,
compute exactly the same boolean mask. -/
theorem mask_noninterference
    (V maskId N L : ℕ) (minRate : ℚ) (schedule : ℚ → ℚ)
    (tokens₁ tokens₂ : List (List ℕ)) (classIds₁ classIds₂ : List ℕ)
    (ts : List ℚ) (rands : List (List ℚ))
    (hN₁ : tokens₁.length = N) (hN₂ : tokens₂.length = N) (hNr : rands.length = N)
    (hrows₁ : ∀ row ∈ tokens₁, row.length = L)
    (hrows₂ : ∀ row ∈ tokens₂, row.length = L)
    (hrrows : ∀ row ∈ rands, row.length = L) :
    recoveredMask
        (trainStepMask V maskId minRate schedule tokens₁ classIds₁ ts rands).labels
      = recoveredMask
          (trainStepMask V maskId minRate schedule tokens₂ classIds₂ ts rands).labels := by
  simp only [trainStepMask, recoveredMask, List.map_map, hN₁, hN₂]
  refine List.map_congr_left ?_
  intro i hi
  have hiN : i < N := List.mem_range.mp hi
  have hi₁ : i < tokens₁.length := by omega
  have hi₂ : i < tokens₂.length := by omega
  have hne₁ : tokens₁ ≠ [] := by
    intro h
    rw [h] at hN₁
    simp at hN₁
    omega
  have hne₂ : tokens₂ ≠ [] := by
    intro h
    rw [h] at hN₂
    simp at hN₂
    omega
  have hhead₁ : (tokens₁.headD []).length = L := headD_length tokens₁ L hrows₁ hne₁
  have hhead₂ : (tokens₂.headD []).length = L := headD_length tokens₂ L hrows₂ hne₂
  have htl₁ : (tokens₁.getD i []).length = L :=
    hrows₁ _ (by rw [List.getD_eq_getElem _ _ hi₁]; exact List.getElem_mem hi₁)
  have htl₂ : (tokens₂.getD i []).length = L :=
    hrows₂ _ (by rw [List.getD_eq_getElem _ _ hi₂]; exact List.getElem_mem hi₂)
  simp only [Function.comp, trainStepRow_labels, List.tail_cons]
  rw [recover_zipWith, recover_zipWith, hhead₁, hhead₂, htl₁, htl₂]

/-! ### C9 -/

/-- C9 (implicit): the rounding applied to `L * mask_prob` in the masked
count is round-half-to-even: over exact rational values, whenever
`L * mask_prob` is exactly halfway between two integers the even one is
chosen, and (for n ≥ 1) the clamped count equals that rounded value. -/
theorem round_half_to_even (L : ℕ) (p : ℚ) (n : ℤ)
    (h : (L : ℚ) * p = (n : ℚ) + 1/2) (hn : 1 ≤ n) :
    numTokenMasked L p = roundHalfEven ((L : ℚ) * p) ∧
    Even (roundHalfEven ((L : ℚ) * p)) ∧
    (roundHalfEven ((L : ℚ) * p) = n ∨ roundHalfEven ((L : ℚ) * p) = n + 1) := by
  have hfl : ⌊(L : ℚ) * p⌋ = n := by
    rw [h, add_comm, Int.floor_add_int]
    norm_num
  have hr : roundHalfEven ((L : ℚ) * p) = if n % 2 = 0 then n else n + 1 := by
    rw [roundHalfEven, hfl, h]
    norm_num
  refine ⟨?_, ?_, ?_⟩
  · rw [numTokenMasked, hr]
    split <;> omega
  · rw [hr]
    split
    · exact Int.even_iff.mpr (by omega)
    · exact Int.even_iff.mpr (by omega)
  · rw [hr]
    split
    · exact Or.inl rfl
    · exact Or.inr rfl

/-! ### Witnesses -/

theorem masked_count_eq_clamp_witness :
    (([[7, 8]] : List (List ℕ)).length = 1) ∧
    (([[(1:ℚ), 2]] : List (List ℚ)).length = 1) ∧
    (∀ row ∈ ([[7, 8]] : List (List ℕ)), row.length = 2) ∧
    (∀ row ∈ ([[(1:ℚ), 2]] : List (List ℚ)), row.length = 2) ∧
    (1 ≤ 2) ∧ (0 < 1) ∧
    (∀ t ∈ ([[7, 8]] : List (List ℕ)).getD 0 [], t ≠ 200) ∧
    ((((trainStepMask 10 200 0 (fun _ => 0) [[7, 8]] [3] [0]
          [[1, 2]]).inputIds.getD 0 []).tail.count 200 : ℕ) : ℤ)
      = min (max (roundHalfEven ((2 : ℚ) * clip 0 0)) 1) (2 : ℤ) :=
  ⟨rfl, rfl, by decide, by decide, by decide, by decide, by decide,
    masked_count_eq_clamp 10 200 1 2 0 0 (fun _ => 0) [[7, 8]] [3] [0] [[1, 2]]
      rfl rfl (by decide) (by decide) (by decide) (by decide) (by decide)⟩

theorem masked_position_values_witness :
    (([[7, 8]] : List (List ℕ)).length = 1) ∧
    (([[(1:ℚ), 2]] : List (List ℚ)).length = 1) ∧
    (∀ row ∈ ([[7, 8]] : List (List ℕ)), row.length = 2) ∧
    (∀ row ∈ ([[(1:ℚ), 2]] : List (List ℚ)), row.length = 2) ∧
    (0 < 1) ∧ (1 ≤ 1) ∧ (1 ≤ 2) ∧
    (∀ t ∈ ([[7, 8]] : List (List ℕ)).getD 0 [], t < 10) ∧ (¬ 200 < 10) ∧
    (((rowMask [(1:ℚ), 2] (numTokenMasked 2 (clip 0 0))).getD 0 false = true →
        ((trainStepMask 10 200 0 (fun _ => 0) [[7, 8]] [3] [0]
            [[1, 2]]).inputIds.getD 0 []).getD 1 0 = 200 ∧
        ((trainStepMask 10 200 0 (fun _ => 0) [[7, 8]] [3] [0]
            [[1, 2]]).labels.getD 0 []).getD 1 0 = (7 : ℤ)) ∧
      ((rowMask [(1:ℚ), 2] (numTokenMasked 2 (clip 0 0))).getD 0 false = false →
        ((trainStepMask 10 200 0 (fun _ => 0) [[7, 8]] [3] [0]
            [[1, 2]]).inputIds.getD 0 []).getD 1 0 = 7 ∧
        ((trainStepMask 10 200 0 (fun _ => 0) [[7, 8]] [3] [0]
            [[1, 2]]).labels.getD 0 []).getD 1 0 = -100)) :=
  ⟨rfl, rfl, by decide, by decide, by decide, by decide, by decide, by decide, by decide,
    masked_position_values 10 200 1 2 0 1 0 (fun _ => 0) [[7, 8]] [3] [0] [[1, 2]]
      rfl rfl (by decide) (by decide) (by decide) (by decide) (by decide)
      (by decide) (by decide)⟩

theorem output_shapes_and_class_slot_witness :
    (([[7, 8]] : List (List ℕ)).length = 1) ∧
    (([[(1:ℚ), 2]] : List (List ℚ)).length = 1) ∧
    (∀ row ∈ ([[7, 8]] : List (List ℕ)), row.length = 2) ∧
    (∀ row ∈ ([[(1:ℚ), 2]] : List (List ℚ)), row.length = 2) ∧
    ((trainStepMask 10 200 0 (fun _ => 0) [[7, 8]] [3] [0]
        [[1, 2]]).inputIds.length = 1 ∧
      (trainStepMask 10 200 0 (fun _ => 0) [[7, 8]] [3] [0]
        [[1, 2]]).labels.length = 1 ∧
      ∀ i, i < 1 →
        ((trainStepMask 10 200 0 (fun _ => 0) [[7, 8]] [3] [0]
            [[1, 2]]).inputIds.getD i []).length = 2 + 1 ∧
        ((trainStepMask 10 200 0 (fun _ => 0) [[7, 8]] [3] [0]
            [[1, 2]]).labels.getD i []).length = 2 + 1 ∧
        ((trainStepMask 10 200 0 (fun _ => 0) [[7, 8]] [3] [0]
            [[1, 2]]).inputIds.getD i []).getD 0 0 = ([3] : List ℕ).getD i 0 + 10 ∧
        ((trainStepMask 10 200 0 (fun _ => 0) [[7, 8]] [3] [0]
            [[1, 2]]).labels.getD i []).getD 0 0 = -100) :=
  ⟨rfl, rfl, by decide, by decide,
    output_shapes_and_class_slot 10 200 1 2 0 (fun _ => 0) [[7, 8]] [3] [0] [[1, 2]]
      rfl rfl (by decide) (by decide)⟩

theorem mask_noninterference_witness :
    (([[7, 8]] : List (List ℕ)).length = 1) ∧
    (([[9, 4]] : List (List ℕ)).length = 1) ∧
    (([[(1:ℚ), 2]] : List (List ℚ)).length = 1) ∧
    (∀ row ∈ ([[7, 8]] : List (List ℕ)), row.length = 2) ∧
    (∀ row ∈ ([[9, 4]] : List (List ℕ)), row.length = 2) ∧
    (∀ row ∈ ([[(1:ℚ), 2]] : List (List ℚ)), row.length = 2) ∧
    recoveredMask
        (trainStepMask 10 200 0 (fun _ => 0) [[7, 8]] [3] [0] [[1, 2]]).labels
      = recoveredMask
          (trainStepMask 10 200 0 (fun _ => 0) [[9, 4]] [5] [0] [[1, 2]]).labels :=
  ⟨rfl, rfl, rfl, by decide, by decide, by decide,
    mask_noninterference 10 200 1 2 0 (fun _ => 0) [[7, 8]] [[9, 4]] [3] [5] [0] [[1, 2]]
      rfl rfl rfl (by decide) (by decide) (by decide)⟩

theorem round_half_to_even_witness :
    ((4 : ℚ) * (5/8) = ((2 : ℤ) : ℚ) + 1/2) ∧ ((1 : ℤ) ≤ 2) ∧
    (numTokenMasked 4 (5/8) = roundHalfEven ((4 : ℚ) * (5/8)) ∧
      Even (roundHalfEven ((4 : ℚ) * (5/8))) ∧
      (roundHalfEven ((4 : ℚ) * (5/8)) = 2 ∨ roundHalfEven ((4 : ℚ) * (5/8)) = 2 + 1)) :=
  ⟨by norm_num, by norm_num,
    round_half_to_even 4 (5/8) 2 (by norm_num) (by norm_num)⟩
